import Mathlib

/-!
Verification of the `home_vision` motion pipeline: a shallow embedding of the
vision/fusion state machine (`src/home_vision/vision/fuse_vision.py`) and of
the doorway spotlight controller
(`src/home_vision/nodes/spotlight_controller.py`), together with proofs of the
behavioural properties stated in the specification.

Conventions of the embedding:
* Python floats are modelled as rationals (`ℚ`); every comparison in the
  modelled code paths is between exactly-constructed values, so `ℚ` is a
  faithful model of the float comparisons that occur.
* Wall-clock timestamps (`time.time()`) are passed in explicitly.
* MQTT publications are collected into lists of `Pub` values; hardware writes
  of the spotlight are collected into lists of `HardwareWrite` values.
* The spotlight controller's single `threading.Lock` is non-reentrant: a
  thread that acquires it while already holding it blocks forever.  Methods
  that enter `with self._lock:` therefore return `Option`: `none` models the
  call never returning.
-/

namespace HomeVision

/-- A point in normalized frame coordinates, from `fuse_vision.py`. -/
abbrev Point : Type := ℚ × ℚ

/-- A door line given by its two endpoints, from `fuse_vision.py`. -/
abbrev Line : Type := Point × Point

/-- `line_crossed(prev_point, curr_point, line)` from `fuse_vision.py`:
represents the line as `Ax + By + C = 0`, evaluates the signed sides of the
two points, returns `none` when either side is zero or both share a sign,
and otherwise classifies the movement direction by the sign of the dot
product of the movement vector with the line normal `(A, B)`. -/
def line_crossed (prev_point curr_point : Point) (line : Line) : Option String :=
  let x1 := line.1.1
  let y1 := line.1.2
  let x2 := line.2.1
  let y2 := line.2.2
  let a := y1 - y2
  let b := x2 - x1
  let c := x1 * y2 - x2 * y1
  let prev_side := a * prev_point.1 + b * prev_point.2 + c
  let curr_side := a * curr_point.1 + b * curr_point.2 + c
  if prev_side = 0 ∨ curr_side = 0 ∨ prev_side * curr_side > 0 then
    none
  else
    let dot := (curr_point.1 - prev_point.1) * a + (curr_point.2 - prev_point.2) * b
    if dot > 0 then some "into_living" else some "into_room"

/-- The body of the `point_in_polygon` loop in `fuse_vision.py` for one edge
`(v1, v2)`: the edge straddles the horizontal ray at height `y` and `x` lies
left of the edge at that height.  The `or 1e-6` guard of the Python source
(replacing a zero divisor by `1e-6`) is kept verbatim. -/
def edge_test (point : Point) (v1 v2 : Point) : Bool :=
  let x := point.1
  let y := point.2
  let x1 := v1.1
  let y1 := v1.2
  let x2 := v2.1
  let y2 := v2.2
  (decide (y1 > y) != decide (y2 > y)) &&
    decide (x < (x2 - x1) * (y - y1) / (if y2 - y1 = 0 then 1 / 1000000 else y2 - y1) + x1)

/-- `point_in_polygon(point, polygon)` from `fuse_vision.py`: ray casting.
The loop over `i in range(len(polygon))` pairs vertex `i` with vertex
`(i + 1) % len(polygon)` and toggles `inside` whenever `edge_test` holds. -/
def point_in_polygon (point : Point) (polygon : List Point) : Bool :=
  (List.range polygon.length).foldl
    (fun inside i =>
      let v1 := polygon.getD i (0, 0)
      let v2 := polygon.getD ((i + 1) % polygon.length) (0, 0)
      if edge_test point v1 v2 then !inside else inside)
    false

/-- The cyclically closed edge list of a polygon: vertex `i` paired with
vertex `(i + 1) mod n`.  Auxiliary view of the `point_in_polygon` loop. -/
def edges (polygon : List Point) : List (Point × Point) :=
  polygon.zip (polygon.rotate 1)

/-- Number of polygon edges passing the ray test: the parity of this count is
the result of `point_in_polygon`. -/
def crossing_count (point : Point) (polygon : List Point) : ℕ :=
  (edges polygon).countP fun e => edge_test point e.1 e.2

/-- Swap of the two direction strings returned by `line_crossed`. -/
def opposite_direction (d : String) : String :=
  if d = "into_living" then "into_room" else "into_living"

end HomeVision

namespace Spotlight

/-- `SpotlightConfig` from `spotlight_controller.py`, restricted to the fields
the controller logic reads (bus parameters and pin numbers are external). -/
structure Config where
  light_hold_seconds : ℚ := 8
  brightness : ℚ := 17/20
  rest_brightness : ℚ := 0
  servo_pan_angle : ℚ := -20
  servo_tilt_angle : ℚ := -5
  servo_rest_pan : ℚ := 0
  servo_rest_tilt : ℚ := 0
  servo_min_angle : ℚ := -90
  servo_max_angle : ℚ := 90
  auto_rest : Bool := true
deriving DecidableEq

/-- A write reaching the hardware layer: a servo orientation command or an
LED brightness command, with the values actually applied. -/
inductive HardwareWrite where
  | orientation (pan tilt : ℚ)
  | led (value : ℚ)
deriving DecidableEq

/-- `SpotlightHardware._clamp_angle`: clamp to the configured servo range. -/
def clamp_angle (config : Config) (angle : ℚ) : ℚ :=
  max config.servo_min_angle (min config.servo_max_angle angle)

/-- `SpotlightHardware.set_orientation`: clamps pan and tilt, then writes the
angles to the servos. -/
def set_orientation (config : Config) (pan tilt : ℚ) : HardwareWrite :=
  .orientation (clamp_angle config pan) (clamp_angle config tilt)

/-- `SpotlightHardware.set_brightness`: clamps the value to `[0, 1]`, then
writes it to the LED. -/
def set_brightness (value : ℚ) : HardwareWrite :=
  .led (max 0 (min 1 value))

/-- Mutable state of `SpotlightController`: whether its `threading.Lock` is
currently held, `_last_on` and `_current_brightness`. -/
structure State where
  lock_held : Bool
  last_on : ℚ
  current_brightness : ℚ
deriving DecidableEq

/-- Controller state after `__init__`: lock free, `_last_on = 0.0`,
`_current_brightness = rest_brightness`. -/
def initial_state (config : Config) : State :=
  { lock_held := false, last_on := 0, current_brightness := config.rest_brightness }

/-- `SpotlightController._deactivate`.  The body runs under
`with self._lock:`; acquiring the controller's non-reentrant `threading.Lock`
while it is already held blocks forever, modelled as `none`.  On the fast
path (already at rest brightness) nothing is written; otherwise the LED is
set to rest brightness, `_current_brightness` is updated, and when
`auto_rest` is set the servos are moved back to the rest angles. -/
def deactivate (config : Config) (s : State) :
    Option (State × List HardwareWrite) :=
  if s.lock_held then none
  else
    if s.current_brightness = config.rest_brightness then some (s, [])
    else
      some ({ s with current_brightness := config.rest_brightness },
        set_brightness config.rest_brightness ::
          (if config.auto_rest then
            [set_orientation config config.servo_rest_pan config.servo_rest_tilt]
          else []))

/-- `SpotlightController._activate`: under the lock, refresh `_last_on` to
`now`; if not already at active brightness, move the servos to the target
angles, set the LED to the active brightness and update
`_current_brightness`. -/
def activate (config : Config) (now : ℚ) (s : State) :
    Option (State × List HardwareWrite) :=
  if s.lock_held then none
  else
    let s1 := { s with last_on := now }
    if s1.current_brightness = config.brightness then some (s1, [])
    else
      some ({ s1 with current_brightness := config.brightness },
        [set_orientation config config.servo_pan_angle config.servo_tilt_angle,
         set_brightness config.brightness])

/-- `SpotlightController.periodic`: return immediately when
`light_hold_seconds ≤ 0`; otherwise acquire the lock, return when not at
active brightness, and when the hold window has expired call `_deactivate()`
while still holding the lock.  The nested `with self._lock:` inside
`_deactivate` then attempts to re-acquire the already-held non-reentrant
lock, which never returns (`none`). -/
def periodic (config : Config) (now : ℚ) (s : State) :
    Option (State × List HardwareWrite) :=
  if config.light_hold_seconds ≤ 0 then some (s, [])
  else if s.lock_held then none
  else
    let locked : State := { s with lock_held := true }
    if locked.current_brightness ≠ config.brightness then some (s, [])
    else if now - locked.last_on ≥ config.light_hold_seconds then
      match deactivate config locked with
      | none => none
      | some (s2, writes) => some ({ s2 with lock_held := false }, writes)
    else some (s, [])

end Spotlight

namespace Fusion

open HomeVision

/-- `GeometryConfig` from `fuse_vision.py` with its default door lines and
living-room polygon. -/
structure GeometryConfig where
  bed_door : Line := ((3/20, 3/10), (7/20, 3/10))
  bath_door : Line := ((13/20, 2/5), (17/20, 2/5))
  living_room_polygon : List Point := [(1/5, 7/20), (4/5, 7/20), (17/20, 9/10), (3/20, 9/10)]
deriving DecidableEq

/-- `FusionConfig` from `fuse_vision.py`, restricted to the fields the fusion
state machine reads; the topic strings mirror the `mqtt_topics` defaults. -/
structure Config where
  vision_state : String := "vision/state/living_room"
  bed_event_out : String := "events/person/bedroom/out"
  bed_event_in : String := "events/person/bedroom/in"
  bath_event_out : String := "events/person/bathroom/out"
  bath_event_in : String := "events/person/bathroom/in"
  detection_cooldown : ℚ := 1
  presence_hold_seconds : ℚ := 3
  presence_confirm_seconds : ℚ := 1/2
  pir_cross_window : ℚ := 1
  geometry : GeometryConfig := {}
deriving DecidableEq

/-- The two doors checked by `_process_frame`, in its fixed order. -/
inductive Door where
  | bed
  | bath
deriving DecidableEq

/-- The line configured for a door (`geometry.bed_door` / `geometry.bath_door`). -/
def door_line (config : Config) : Door → Line
  | .bed => config.geometry.bed_door
  | .bath => config.geometry.bath_door

/-- The zone string derived from a door in `_handle_detection`:
`"bedroom" if door == "bed" else "bathroom"`. -/
def zone : Door → String
  | .bed => "bedroom"
  | .bath => "bathroom"

/-- Mutable state of `VisionFusionService` relevant to the fusion logic:
`_last_centroid`, `_last_cross_time` (per door), `_last_presence_state`,
`_presence_enter_time`, `_presence_exit_start`, and `_pir_last_on` (per
zone). -/
structure State where
  last_centroid : Option Point
  last_cross_bed : ℚ
  last_cross_bath : ℚ
  last_presence_state : Bool
  presence_enter_time : ℚ
  presence_exit_start : ℚ
  pir_last_on_bedroom : ℚ
  pir_last_on_bathroom : ℚ
deriving DecidableEq

/-- Service state after `__init__`: no centroid yet, all timestamps `0.0`,
presence `False`. -/
def initial_state : State :=
  { last_centroid := none
    last_cross_bed := 0
    last_cross_bath := 0
    last_presence_state := false
    presence_enter_time := 0
    presence_exit_start := 0
    pir_last_on_bedroom := 0
    pir_last_on_bathroom := 0 }

/-- `self._last_cross_time[door]`. -/
def last_cross_time (s : State) : Door → ℚ
  | .bed => s.last_cross_bed
  | .bath => s.last_cross_bath

/-- `self._last_cross_time[door] = ts`. -/
def set_last_cross (s : State) (d : Door) (ts : ℚ) : State :=
  match d with
  | .bed => { s with last_cross_bed := ts }
  | .bath => { s with last_cross_bath := ts }

/-- `self._pir_last_on.get(zone, 0.0)` from `_handle_detection`. -/
def pir_last_on (s : State) (z : String) : ℚ :=
  if z = "bedroom" then s.pir_last_on_bedroom
  else if z = "bathroom" then s.pir_last_on_bathroom
  else 0

/-- An MQTT publication of the fusion service: a crossing event (built in
`_handle_detection`) or a presence event (built in `_publish_presence`).
The `door` field of a crossing records which door produced it; the topic is
computed from it exactly as in the source. -/
inductive Pub where
  | crossing (door : Door) (topic : String) (ts : ℚ) (dir : String)
      (centroid : Point) (conf : ℚ)
  | presence (topic : String) (present : Bool) (conf : ℚ) (ts : ℚ)
deriving DecidableEq

/-- `_publish_presence(present)`: payload `{present, conf: 0.9 if present
else 0.8, ts}` on the `vision_state` topic. -/
def publish_presence (config : Config) (present : Bool) (ts : ℚ) : Pub :=
  .presence config.vision_state present (if present then 9/10 else 8/10) ts

/-- `_update_presence(centroid)` from `fuse_vision.py`, with the wall-clock
`ts` passed explicitly.  Returns the new state and the presence events
published during the call (at most one). -/
def update_presence (config : Config) (s : State) (ts : ℚ) (centroid : Option Point) :
    State × List Pub :=
  let in_polygon : Bool :=
    match centroid with
    | none => false
    | some c => point_in_polygon c config.geometry.living_room_polygon
  if in_polygon then
    if !s.last_presence_state then
      if s.presence_enter_time = 0 then
        ({ s with presence_enter_time := ts }, [])
      else if ts - s.presence_enter_time ≥ config.presence_confirm_seconds then
        ({ s with last_presence_state := true, presence_exit_start := 0 },
          [publish_presence config true ts])
      else (s, [])
    else
      ({ s with presence_exit_start := 0 }, [])
  else
    let s1 := { s with presence_enter_time := 0 }
    if s1.last_presence_state then
      if s1.presence_exit_start = 0 then
        ({ s1 with presence_exit_start := ts }, [])
      else if ts - s1.presence_exit_start ≥ config.presence_hold_seconds then
        ({ s1 with last_presence_state := false }, [publish_presence config false ts])
      else (s1, [])
    else
      ({ s1 with presence_exit_start := 0 }, [])

/-- The `for door_name, line in (("bed", ...), ("bath", ...))` loop of
`_process_frame`: the first door whose line the movement `prev → curr`
crossed and whose cooldown has elapsed is recorded in `_last_cross_time` and
returned; a door whose cooldown has not elapsed is skipped (`continue`). -/
def door_scan (config : Config) (s : State) (ts : ℚ) (prev curr : Point) :
    List Door → State × Option (Door × String)
  | [] => (s, none)
  | d :: rest =>
    match line_crossed prev curr (door_line config d) with
    | none => door_scan config s ts prev curr rest
    | some direction =>
      if ts - last_cross_time s d < config.detection_cooldown then
        door_scan config s ts prev curr rest
      else
        (set_last_cross s d ts, some (d, direction))

/-- The detection dictionary built by `_process_frame`: centroid, timestamp
and, when a crossing was accepted, the door and direction. -/
structure Detection where
  centroid : Point
  ts : ℚ
  door : Option Door
  direction : Option String
deriving DecidableEq

/-- `_process_frame` from the detected centroid onward (the cv2 detection
stage in front of it is external to the fusion logic; `centroid` is its
outcome, `none` when no acceptable contour was found).  Mirrors the source
order: `_update_presence` first, then the previous centroid is read,
`_last_centroid` is overwritten, and when a previous centroid exists the
door-crossing scan runs and a detection record is returned. -/
def process_frame (config : Config) (s : State) (ts : ℚ) (centroid : Option Point) :
    State × List Pub × Option Detection :=
  match centroid with
  | none =>
    let (s1, pubs) := update_presence config s ts none
    (s1, pubs, none)
  | some c =>
    let (s1, pubs) := update_presence config s ts (some c)
    let prev := s1.last_centroid
    let s2 := { s1 with last_centroid := some c }
    match prev with
    | none => (s2, pubs, none)
    | some p =>
      let (s3, hit) := door_scan config s2 ts p c [Door.bed, Door.bath]
      (s3, pubs, some ⟨c, ts, hit.map Prod.fst, hit.map Prod.snd⟩)

/-- `_handle_detection(detection)`: when the detection carries a door and a
direction, look up the door's zone, test whether the zone's last PIR pulse is
within `pir_cross_window` of the event, pick confidence `0.85`/`0.70`, select
the zone's `_out` topic for `into_living` and `_in` topic otherwise, and
publish `{ts, dir, centroid, conf}`. -/
def handle_detection (config : Config) (s : State) (det : Detection) : List Pub :=
  match det.door, det.direction with
  | some door, some direction =>
    let z := zone door
    let pir_ts := pir_last_on s z
    let pir_recent : Bool := decide (det.ts - pir_ts ≤ config.pir_cross_window)
    let conf : ℚ := if pir_recent then 17/20 else 7/10
    let topic :=
      if direction = "into_living" then
        if z = "bedroom" then config.bed_event_out else config.bath_event_out
      else
        if z = "bedroom" then config.bed_event_in else config.bath_event_in
    [Pub.crossing door topic det.ts direction det.centroid conf]
  | _, _ => []

/-- One iteration of the service loop for one frame: `_process_frame`
followed by `_handle_detection` when a detection was returned. -/
def step (config : Config) (s : State) (ts : ℚ) (centroid : Option Point) :
    State × List Pub :=
  match process_frame config s ts centroid with
  | (s1, pubs, none) => (s1, pubs)
  | (s1, pubs, some det) => (s1, pubs ++ handle_detection config s1 det)

/-- A whole execution: one `step` per frame, each frame given by its
wall-clock timestamp and the detected centroid (or `none`).  Collects the
full publication sequence in order. -/
def run_trace (config : Config) (s : State) :
    List (ℚ × Option Point) → State × List Pub
  | [] => (s, [])
  | (ts, c) :: rest =>
    let (s1, pubs) := step config s ts c
    let (s2, more) := run_trace config s1 rest
    (s2, pubs ++ more)

/-- Timestamps of the published crossing events of door `d`, in publication
order. -/
def cross_times (d : Door) (pubs : List Pub) : List ℚ :=
  pubs.filterMap fun p =>
    match p with
    | .crossing d' _ ts _ _ _ => if d' = d then some ts else none
    | .presence _ _ _ _ => none

/-- The `present` booleans of the published presence events, in publication
order. -/
def presence_values (pubs : List Pub) : List Bool :=
  pubs.filterMap fun p =>
    match p with
    | .crossing _ _ _ _ _ _ => none
    | .presence _ present _ _ => some present

/-- Well-formedness of a presence publication: it is on the `vision_state`
topic and its confidence is `0.9` when present and `0.8` otherwise.
Crossing publications satisfy it vacuously. -/
def presence_pub_ok (config : Config) : Pub → Bool
  | .crossing _ _ _ _ _ _ => true
  | .presence topic present conf _ =>
    decide (topic = config.vision_state) &&
      decide (conf = if present then (9:ℚ)/10 else 8/10)

end Fusion

namespace Spotlight

/-- Claim C9: every `SpotlightHardware.set_orientation` call applies angle
values within `[servo_min_angle, servo_max_angle]` (for a configuration whose
servo range is non-degenerate), and every `SpotlightHardware.set_brightness`
call applies a value within `[0, 1]`. -/
theorem hardware_writes_in_range (config : Config) (pan tilt value : ℚ)
    (h : config.servo_min_angle ≤ config.servo_max_angle) :
    (∃ p t, set_orientation config pan tilt = .orientation p t ∧
      config.servo_min_angle ≤ p ∧ p ≤ config.servo_max_angle ∧
      config.servo_min_angle ≤ t ∧ t ≤ config.servo_max_angle) ∧
    ∃ v, set_brightness value = .led v ∧ 0 ≤ v ∧ v ≤ 1 := by
  refine ⟨⟨clamp_angle config pan, clamp_angle config tilt, rfl, ?_, ?_, ?_, ?_⟩,
    max 0 (min 1 value), rfl, le_max_left 0 _, ?_⟩
  · exact le_max_left _ _
  · exact max_le h (min_le_left _ _)
  · exact le_max_left _ _
  · exact max_le h (min_le_left _ _)
  · exact max_le zero_le_one (min_le_left 1 value)

/-- Witness for C9: the default configuration with out-of-range requests
`pan = 200`, `tilt = -200`, `brightness = 5`. -/
theorem hardware_writes_in_range_witness :
    (∃ p t, set_orientation {} 200 (-200) = .orientation p t ∧
      Config.servo_min_angle {} ≤ p ∧ p ≤ Config.servo_max_angle {} ∧
      Config.servo_min_angle {} ≤ t ∧ t ≤ Config.servo_max_angle {}) ∧
    ∃ v, set_brightness 5 = .led v ∧ 0 ≤ v ∧ v ≤ 1 :=
  hardware_writes_in_range {} 200 (-200) 5 (by norm_num)

/-- Claim C10: calling `_activate` twice with no intervening `_deactivate`
yields at most one hardware transition.  Whatever the starting state (with
the lock free), the second call performs no servo or LED write, leaves the
stored brightness unchanged, and only refreshes `_last_on` to the second
call's time; and when the first call started away from the active brightness
it performed exactly the one servo-write/LED-write pair. -/
theorem activate_twice_one_transition (config : Config) (s : State) (t1 t2 : ℚ)
    (hlock : s.lock_held = false) :
    ∃ s1 w1 s2 w2,
      activate config t1 s = some (s1, w1) ∧
      activate config t2 s1 = some (s2, w2) ∧
      w2 = [] ∧ s2.current_brightness = s1.current_brightness ∧
      s2 = { s1 with last_on := t2 } ∧
      (s.current_brightness ≠ config.brightness →
        w1 = [set_orientation config config.servo_pan_angle config.servo_tilt_angle,
          set_brightness config.brightness]) := by
  by_cases hb : s.current_brightness = config.brightness
  · refine ⟨{ s with last_on := t1 }, [], { s with last_on := t2 }, [],
      ?_, ?_, rfl, rfl, rfl, fun hne => absurd hb hne⟩ <;>
      simp [activate, hlock, hb]
  · refine ⟨{ s with last_on := t1, current_brightness := config.brightness },
      [set_orientation config config.servo_pan_angle config.servo_tilt_angle,
        set_brightness config.brightness],
      { s with last_on := t2, current_brightness := config.brightness }, [],
      ?_, ?_, rfl, rfl, rfl, fun _ => rfl⟩ <;>
      simp [activate, hlock, hb]

/-- Witness for C10: default configuration, fresh controller state, triggers
at times 1 and 2.  The first call writes the servo/LED pair; the second call
writes nothing and only refreshes `_last_on`. -/
theorem activate_twice_one_transition_witness :
    ∃ s1 w1 s2 w2,
      activate {} 1 (initial_state {}) = some (s1, w1) ∧
      activate {} 2 s1 = some (s2, w2) ∧
      w2 = [] ∧ s2.current_brightness = s1.current_brightness ∧
      s2 = { s1 with last_on := 2 } ∧
      ((initial_state {}).current_brightness ≠ Config.brightness {} →
        w1 = [set_orientation {} (Config.servo_pan_angle {}) (Config.servo_tilt_angle {}),
          set_brightness (Config.brightness {})]) :=
  activate_twice_one_transition {} (initial_state {}) 1 2 rfl

end Spotlight

namespace Spotlight

/-- Claim C2 (divergence): with the default configuration
(`light_hold_seconds = 8`), brightness at the active level and the hold
window expired (`now = 10`, `last_on = 0`), the periodic tick does NOT
perform the deactivation: the nested `_deactivate()` re-acquires the
controller's non-reentrant lock, so the call never returns (`none`) and no
LED or servo write is issued. -/
theorem periodic_hold_expired_no_deactivation :
    periodic {} 10 { lock_held := false, last_on := 0, current_brightness := 17/20 } =
      none := by
  norm_num [periodic, deactivate]

/-- Claim C3 (divergence): a call to `periodic()` that reaches the
expired-hold branch does not terminate: `_deactivate()` blocks forever on the
lock `periodic()` already holds.  Shown at `light_hold_seconds = 5`, active
brightness `17/20`, `last_on = 0`, `now = 6`. -/
theorem periodic_reentrant_lock_blocks :
    periodic { light_hold_seconds := 5 } 6
      { lock_held := false, last_on := 0, current_brightness := 17/20 } = none := by
  norm_num [periodic, deactivate]

end Spotlight

namespace HomeVision

/-- Claim C7: swapping the two points given to `line_crossed` yields `none`
exactly when the original call yields `none`, and otherwise the opposite
direction (`into_living` ↔ `into_room`). -/
theorem line_crossed_antisymm (p q : Point) (L : Line) (h : L.1 ≠ L.2) :
    line_crossed q p L = (line_crossed p q L).map opposite_direction := by
  obtain ⟨⟨x1, y1⟩, x2, y2⟩ := L
  obtain ⟨px, py⟩ := p
  obtain ⟨qx, qy⟩ := q
  simp only [line_crossed]
  set a := y1 - y2 with ha
  set b := x2 - x1 with hb
  set c := x1 * y2 - x2 * y1 with hc
  set S := a * px + b * py + c with hS
  set T := a * qx + b * qy + c with hT
  have hiff : (T = 0 ∨ S = 0 ∨ T * S > 0) ↔ (S = 0 ∨ T = 0 ∨ S * T > 0) := by
    rw [mul_comm]; tauto
  by_cases hcond : S = 0 ∨ T = 0 ∨ S * T > 0
  · rw [if_pos (hiff.mpr hcond), if_pos hcond]
    rfl
  · push_neg at hcond
    obtain ⟨hS0, hT0, hST⟩ := hcond
    have hSTlt : S * T < 0 :=
      lt_of_le_of_ne hST (mul_ne_zero hS0 hT0)
    have hnc : ¬(S = 0 ∨ T = 0 ∨ S * T > 0) := by
      rintro (h0 | h0 | h0)
      exacts [hS0 h0, hT0 h0, absurd h0 (not_lt.mpr hST)]
    rw [if_neg (fun hx => hnc (hiff.mp hx)), if_neg hnc]
    have hpq : (qx - px) * a + (qy - py) * b = T - S := by rw [hS, hT]; ring
    have hqp : (px - qx) * a + (py - qy) * b = S - T := by rw [hS, hT]; ring
    have hne : T - S ≠ 0 := by
      intro h0
      have : T = S := by linarith
      rw [this] at hSTlt
      nlinarith
    rcases lt_or_gt_of_ne hne with hlt | hgt
    · rw [hpq, hqp, if_pos (by linarith : S - T > 0), if_neg (by linarith : ¬T - S > 0)]
      rfl
    · rw [hpq, hqp, if_neg (by linarith : ¬S - T > 0), if_pos hgt]
      rfl

/-- Witness for C7: the default bedroom door line and the two scenario
centroids; the forward call crosses `into_living`, the swapped call
`into_room`. -/
theorem line_crossed_antisymm_witness :
    line_crossed (1/4, 2/5) (1/4, 1/5) ((3/20, 3/10), (7/20, 3/10)) =
      (line_crossed (1/4, 1/5) (1/4, 2/5) ((3/20, 3/10), (7/20, 3/10))).map
        opposite_direction :=
  line_crossed_antisymm (1/4, 1/5) (1/4, 2/5) ((3/20, 3/10), (7/20, 3/10))
    (by norm_num)

end HomeVision

namespace HomeVision

theorem edge_test_swap (p v1 v2 : Point) : edge_test p v2 v1 = edge_test p v1 v2 := by
  obtain ⟨x, y⟩ := p
  obtain ⟨x1, y1⟩ := v1
  obtain ⟨x2, y2⟩ := v2
  simp only [edge_test]
  by_cases hy : y1 = y2
  · subst hy
    simp
  · have h12 : y2 - y1 ≠ 0 := sub_ne_zero.mpr (Ne.symm hy)
    have h21 : y1 - y2 ≠ 0 := sub_ne_zero.mpr hy
    rw [if_neg h12, if_neg h21]
    have heq : (x1 - x2) * (y - y2) / (y1 - y2) + x2 =
        (x2 - x1) * (y - y1) / (y2 - y1) + x1 := by
      field_simp
      ring
    rw [heq]
    cases hd1 : decide (y1 > y) <;> cases hd2 : decide (y2 > y) <;> rfl

theorem zip_drop {α β : Type} : ∀ (A : List α) (B : List β) (k : ℕ),
    (A.zip B).drop k = (A.drop k).zip (B.drop k)
  | _, _, 0 => rfl
  | [], _, _ + 1 => by simp
  | _ :: _, [], _ + 1 => by simp
  | _ :: A, _ :: B, k + 1 => by
    simpa using zip_drop A B k

theorem zip_take {α β : Type} : ∀ (A : List α) (B : List β) (k : ℕ),
    (A.zip B).take k = (A.take k).zip (B.take k)
  | _, _, 0 => rfl
  | [], _, _ + 1 => by simp
  | _ :: _, [], _ + 1 => by simp
  | _ :: A, _ :: B, k + 1 => by
    simpa using zip_take A B k

theorem zip_rotate {α β : Type} (A : List α) (B : List β)
    (h : A.length = B.length) (k : ℕ) :
    (A.zip B).rotate k = (A.rotate k).zip (B.rotate k) := by
  rcases Nat.eq_zero_or_pos A.length with h0 | h0
  · rw [List.length_eq_zero] at h0
    subst h0
    simp
  · have hzl : (A.zip B).length = A.length := by
      rw [List.length_zip, ← h, min_self]
    have hm : k % A.length ≤ A.length := (Nat.mod_lt _ h0).le
    rw [← List.rotate_mod (A.zip B) k, hzl, ← List.rotate_mod A k,
      ← List.rotate_mod B k, ← h]
    rw [List.rotate_eq_drop_append_take (hzl ▸ hm),
      List.rotate_eq_drop_append_take hm,
      List.rotate_eq_drop_append_take (h ▸ hm),
      zip_drop, zip_take, List.zip_append (by simp [h])]

theorem zip_reverse {α β : Type} : ∀ (A : List α) (B : List β),
    A.length = B.length → A.reverse.zip B.reverse = (A.zip B).reverse
  | [], [], _ => rfl
  | a :: A, b :: B, h => by
    have h' : A.length = B.length := by simpa using h
    rw [List.reverse_cons, List.reverse_cons,
      List.zip_append (by simp [h']), zip_reverse A B h']
    simp

theorem foldl_toggle {α : Type} (f : α → Bool) :
    ∀ (l : List α) (b : Bool),
      l.foldl (fun acc a => if f a then !acc else acc) b
        = (b != decide (l.countP f % 2 = 1))
  | [], b => by simp
  | a :: l, b => by
    rw [List.foldl_cons, foldl_toggle f l, List.countP_cons]
    have hpar : decide ((l.countP f + 1) % 2 = 1) = !decide (l.countP f % 2 = 1) := by
      rcases Nat.mod_two_eq_zero_or_one (l.countP f) with h | h <;>
        simp [Nat.add_mod, h]
    by_cases hfa : f a = true
    · rw [if_pos hfa, if_pos hfa, hpar]
      cases b <;> cases hd : decide (l.countP f % 2 = 1) <;> rfl
    · rw [if_neg hfa, if_neg hfa, Nat.add_zero]

theorem edges_rotate (poly : List Point) (k : ℕ) :
    edges (poly.rotate k) = (edges poly).rotate k := by
  rw [edges, edges, List.rotate_rotate,
    zip_rotate poly (poly.rotate 1) (by simp) k, List.rotate_rotate,
    Nat.add_comm 1 k]

theorem crossing_count_rotate (p : Point) (poly : List Point) (k : ℕ) :
    crossing_count p (poly.rotate k) = crossing_count p poly := by
  rw [crossing_count, crossing_count, edges_rotate]
  exact (List.rotate_perm _ _).countP_eq _

theorem crossing_count_reverse (p : Point) (poly : List Point) :
    crossing_count p poly.reverse = crossing_count p poly := by
  rcases poly with _ | ⟨v, _ | ⟨w, rest⟩⟩
  · rfl
  · rfl
  set l : List Point := v :: w :: rest with hl
  have hn2 : 2 ≤ l.length := by simp [hl]
  have h1n : 1 % l.length = 1 := Nat.mod_eq_of_lt (by omega)
  have hrev1 : l.reverse.rotate 1 = (l.rotate (l.length - 1)).reverse := by
    rw [List.rotate_reverse, h1n]
  have hzip : edges l.reverse = (l.zip (l.rotate (l.length - 1))).reverse := by
    rw [edges, hrev1, zip_reverse _ _ (by simp)]
  have hswap : (l.zip (l.rotate (l.length - 1))).map Prod.swap
      = (l.rotate (l.length - 1)).zip l := List.zip_swap _ _
  have hrot : ((l.rotate (l.length - 1)).zip l).rotate 1 = edges l := by
    rw [zip_rotate _ _ (by simp) 1, List.rotate_rotate,
      Nat.sub_add_cancel (by omega), List.rotate_length, edges]
  rw [crossing_count, crossing_count, hzip,
    (List.reverse_perm _).countP_eq]
  calc (l.zip (l.rotate (l.length - 1))).countP (fun e => edge_test p e.1 e.2)
      = ((l.rotate (l.length - 1)).zip l).countP (fun e => edge_test p e.1 e.2) := by
        rw [← hswap, List.countP_map]
        apply List.countP_congr
        intro e _
        have hsw := edge_test_swap p e.1 e.2
        simp [Function.comp, hsw]
    _ = (((l.rotate (l.length - 1)).zip l).rotate 1).countP
          (fun e => edge_test p e.1 e.2) :=
        ((List.rotate_perm _ _).countP_eq _).symm
    _ = (edges l).countP (fun e => edge_test p e.1 e.2) := by rw [hrot]

theorem edges_eq_map_range (poly : List Point) :
    edges poly = (List.range poly.length).map
      (fun i => (poly.getD i (0, 0), poly.getD ((i + 1) % poly.length) (0, 0))) := by
  apply List.ext_getElem
  · simp [edges]
  · intro i h1 h2
    have hi : i < poly.length := by simpa [edges] using h1
    have hi1 : (i + 1) % poly.length < poly.length := Nat.mod_lt _ (by omega)
    simp only [edges, List.getElem_zip, List.getElem_map, List.getElem_range]
    rw [List.getD_eq_getElem _ _ hi, List.getD_eq_getElem _ _ hi1]
    rw [Prod.mk.injEq]
    refine ⟨rfl, ?_⟩
    rw [List.getElem_rotate]

theorem point_in_polygon_eq_parity (p : Point) (poly : List Point) :
    point_in_polygon p poly = decide (crossing_count p poly % 2 = 1) := by
  have hcount : crossing_count p poly = (List.range poly.length).countP
      (fun i => edge_test p (poly.getD i (0, 0))
        (poly.getD ((i + 1) % poly.length) (0, 0))) := by
    rw [crossing_count, edges_eq_map_range, List.countP_map]
    rfl
  show (List.range poly.length).foldl
      (fun inside i =>
        if edge_test p (poly.getD i (0, 0))
            (poly.getD ((i + 1) % poly.length) (0, 0)) then !inside else inside)
      false = _
  rw [foldl_toggle, hcount]
  simp

/-- Claim C8: `point_in_polygon` returns the same boolean when the vertex
sequence is cyclically rotated by any amount and when it is reversed. -/
theorem point_in_polygon_rotation_reversal (p : Point) (poly : List Point) (k : ℕ) :
    point_in_polygon p (poly.rotate k) = point_in_polygon p poly ∧
    point_in_polygon p poly.reverse = point_in_polygon p poly := by
  constructor <;> rw [point_in_polygon_eq_parity, point_in_polygon_eq_parity]
  · rw [crossing_count_rotate]
  · rw [crossing_count_reverse]

end HomeVision

namespace Fusion

open HomeVision

/-- Claim C6 is false on the code (counterexample): with the default
configuration, a state that is not yet present and whose exit timer holds the
stale value `5`, a centroid inside the living-room polygon starts the enter
debounce (`enter_t := now`) but does NOT reset `_presence_exit_start`: the
branch taken by `_update_presence` leaves it untouched. -/
theorem update_presence_exit_not_reset :
    point_in_polygon (1/4, 2/5) (GeometryConfig.living_room_polygon {}) = true ∧
    (update_presence {} { initial_state with presence_exit_start := 5 } 10
        (some (1/4, 2/5))).1.presence_exit_start ≠ 0 := by
  constructor
  · norm_num [point_in_polygon, edge_test, List.range_succ,
      GeometryConfig.living_room_polygon]
  · norm_num [update_presence, initial_state, point_in_polygon, edge_test,
      List.range_succ]

/-- Claim C6 (amended): for a call to `_update_presence` with a centroid
inside the living-room polygon, the exit debounce timer is `0` on return when
presence was already confirmed before the call or the call itself confirms
presence; otherwise the timer is left unchanged rather than reset. -/
theorem update_presence_exit_start_eq (config : Config) (s : State) (ts : ℚ) (c : Point)
    (hin : point_in_polygon c config.geometry.living_room_polygon = true) :
    (update_presence config s ts (some c)).1.presence_exit_start =
      if s.last_presence_state then 0
      else if (update_presence config s ts (some c)).1.last_presence_state then 0
      else s.presence_exit_start := by
  simp only [update_presence, hin]
  cases hp : s.last_presence_state
  · by_cases he : s.presence_enter_time = 0
    · simp [he, hp]
    · by_cases hc : config.presence_confirm_seconds ≤ ts - s.presence_enter_time
      · simp [he, hc, hp]
      · simp [he, hc, hp]
  · simp [hp]

/-- Witness for the amended C6: a confirmed-present state with a pending exit
timer `7` observes a centroid inside the polygon at `ts = 10`. -/
theorem update_presence_exit_start_eq_witness :
    (update_presence {}
        { initial_state with last_presence_state := true, presence_exit_start := 7 }
        10 (some (1/4, 2/5))).1.presence_exit_start =
      if ({ initial_state with
            last_presence_state := true, presence_exit_start := 7 } : State).last_presence_state
      then 0
      else if (update_presence {}
          { initial_state with last_presence_state := true, presence_exit_start := 7 }
          10 (some (1/4, 2/5))).1.last_presence_state then 0
      else ({ initial_state with
            last_presence_state := true, presence_exit_start := 7 } : State).presence_exit_start :=
  update_presence_exit_start_eq {}
    { initial_state with last_presence_state := true, presence_exit_start := 7 }
    10 (1/4, 2/5)
    (by norm_num [point_in_polygon, edge_test, List.range_succ,
      GeometryConfig.living_room_polygon])

end Fusion

namespace Fusion

open HomeVision

theorem scenario_step1 (t0 : ℚ) :
    step {} initial_state t0 (some (1/4, 1/5)) =
      ({ initial_state with last_centroid := some (1/4, 1/5) }, []) := by
  norm_num [step, process_frame, update_presence, initial_state,
    point_in_polygon, edge_test, List.range_succ]

theorem scenario_step2 (t0 : ℚ) (h : 1 < t0) :
    step {} { initial_state with last_centroid := some (1/4, 1/5) } (t0 + 1/10)
        (some (1/4, 2/5)) =
      ({ initial_state with
          last_centroid := some (1/4, 2/5)
          last_cross_bed := t0 + 1/10
          presence_enter_time := t0 + 1/10 },
        [Pub.crossing Door.bed "events/person/bedroom/out" (t0 + 1/10) "into_living"
          (1/4, 2/5) (7/10)]) := by
  have hcross : line_crossed (1/4, 1/5) (1/4, 2/5) ((3/20, 3/10), (7/20, 3/10))
      = some "into_living" := by
    norm_num [line_crossed]
  have hcool : ¬(t0 + 1/10 - 0 < (1:ℚ)) := by linarith
  have hpir : ¬(t0 + 1/10 - 0 ≤ (1:ℚ)) := by linarith
  have hcool2 : ¬(t0 + 1/10 < (1:ℚ)) := by linarith
  have hpir2 : ¬(t0 + 1/10 ≤ (1:ℚ)) := by linarith
  norm_num [step, process_frame, update_presence, door_scan, handle_detection,
    initial_state, point_in_polygon, edge_test, List.range_succ, door_line,
    last_cross_time, set_last_cross, pir_last_on, zone, hcross, hcool, hpir,
    hcool2, hpir2]

/-- Claim C1: a freshly started service with the scenario configuration (the
defaults), no PIR ever received, processing centroid `(0.25, 0.20)` and then
`(0.25, 0.40)` one tenth of a second later publishes exactly one crossing
event, on `events/person/bedroom/out`, with direction `into_living` and
confidence `0.70`.  The scenario's `t = 0` is the service's start instant on
the wall clock; any start time `t0 > 1` (every real epoch timestamp)
satisfies the claim. -/
theorem scenario_bedroom_crossing (t0 : ℚ) (h : 1 < t0) :
    (run_trace {} initial_state
        [(t0, some (1/4, 1/5)), (t0 + 1/10, some (1/4, 2/5))]).2 =
      [Pub.crossing Door.bed "events/person/bedroom/out" (t0 + 1/10) "into_living"
        (1/4, 2/5) (7/10)] := by
  simp only [run_trace, scenario_step1 t0, scenario_step2 t0 h]
  simp

/-- Witness for C1 at start time `t0 = 2`. -/
theorem scenario_bedroom_crossing_witness :
    (run_trace {} initial_state
        [(2, some (1/4, 1/5)), (2 + 1/10, some (1/4, 2/5))]).2 =
      [Pub.crossing Door.bed "events/person/bedroom/out" (2 + 1/10) "into_living"
        (1/4, 2/5) (7/10)] :=
  scenario_bedroom_crossing 2 one_lt_two

end Fusion

namespace Fusion

open HomeVision

theorem update_presence_preserves (config : Config) (s : State) (ts : ℚ)
    (c : Option Point) :
    (update_presence config s ts c).1.last_centroid = s.last_centroid ∧
    (update_presence config s ts c).1.last_cross_bed = s.last_cross_bed ∧
    (update_presence config s ts c).1.last_cross_bath = s.last_cross_bath ∧
    (update_presence config s ts c).1.pir_last_on_bedroom = s.pir_last_on_bedroom ∧
    (update_presence config s ts c).1.pir_last_on_bathroom = s.pir_last_on_bathroom := by
  simp only [update_presence]
  split_ifs <;> simp

theorem update_presence_spec (config : Config) (s : State) (ts : ℚ)
    (c : Option Point) :
    ((update_presence config s ts c).2 = [] ∧
      (update_presence config s ts c).1.last_presence_state = s.last_presence_state)
    ∨ ((update_presence config s ts c).2 = [publish_presence config (!s.last_presence_state) ts] ∧
      (update_presence config s ts c).1.last_presence_state = !s.last_presence_state) := by
  simp only [update_presence]
  split_ifs with h1 h2 h3 h4 h5 h6 h7 <;> simp_all

end Fusion

namespace Fusion

open HomeVision

theorem last_cross_set_self (s : State) (d : Door) (ts : ℚ) :
    last_cross_time (set_last_cross s d ts) d = ts := by
  cases d <;> rfl

theorem last_cross_set_other (s : State) (d d' : Door) (ts : ℚ) (h : d' ≠ d) :
    last_cross_time (set_last_cross s d ts) d' = last_cross_time s d' := by
  cases d <;> cases d' <;> simp_all [set_last_cross, last_cross_time]

theorem last_cross_time_update_presence (config : Config) (s : State) (ts : ℚ)
    (c : Option Point) (d : Door) :
    last_cross_time (update_presence config s ts c).1 d = last_cross_time s d := by
  obtain ⟨-, hbed, hbath, -, -⟩ := update_presence_preserves config s ts c
  cases d
  · exact hbed
  · exact hbath

theorem cross_times_update_presence (config : Config) (s : State) (ts : ℚ)
    (c : Option Point) (d : Door) :
    cross_times d (update_presence config s ts c).2 = [] := by
  rcases update_presence_spec config s ts c with ⟨hp, -⟩ | ⟨hp, -⟩ <;>
    simp [hp, cross_times, publish_presence]

theorem cross_times_append (d : Door) (l1 l2 : List Pub) :
    cross_times d (l1 ++ l2) = cross_times d l1 ++ cross_times d l2 :=
  List.filterMap_append ..

theorem door_scan_spec (config : Config) (s : State) (ts : ℚ) (prev curr : Point) :
    ∀ ds : List Door,
      door_scan config s ts prev curr ds = (s, none)
      ∨ (∃ d dir, door_scan config s ts prev curr ds = (set_last_cross s d ts, some (d, dir)) ∧
          config.detection_cooldown ≤ ts - last_cross_time s d)
  | [] => Or.inl rfl
  | d :: rest => by
    cases hlc : line_crossed prev curr (door_line config d) with
    | none =>
      have := door_scan_spec config s ts prev curr rest
      simpa [door_scan, hlc] using this
    | some dir =>
      by_cases hcd : ts - last_cross_time s d < config.detection_cooldown
      · have := door_scan_spec config s ts prev curr rest
        simpa [door_scan, hlc, hcd] using this
      · right
        exact ⟨d, dir, by simp [door_scan, hlc, hcd], not_lt.mp hcd⟩

end Fusion

namespace Fusion

open HomeVision

theorem step_cross_spec (config : Config) (s : State) (ts : ℚ) (c : Option Point)
    (d : Door) :
    (cross_times d (step config s ts c).2 = [] ∧
      last_cross_time (step config s ts c).1 d = last_cross_time s d)
    ∨ (cross_times d (step config s ts c).2 = [ts] ∧
      config.detection_cooldown ≤ ts - last_cross_time s d ∧
      last_cross_time (step config s ts c).1 d = ts) := by
  cases c with
  | none =>
    left
    rcases hu : update_presence config s ts none with ⟨s1, pubs1⟩
    have h1 : cross_times d pubs1 = [] := by
      have h := cross_times_update_presence config s ts none d
      rw [hu] at h
      exact h
    have h2 : last_cross_time s1 d = last_cross_time s d := by
      have h := last_cross_time_update_presence config s ts none d
      rw [hu] at h
      exact h
    exact ⟨by simp only [step, process_frame, hu]; exact h1,
      by simp only [step, process_frame, hu]; exact h2⟩
  | some cp =>
    rcases hu : update_presence config s ts (some cp) with ⟨s1, pubs1⟩
    have h1 : cross_times d pubs1 = [] := by
      have h := cross_times_update_presence config s ts (some cp) d
      rw [hu] at h
      exact h
    have h2 : last_cross_time s1 d = last_cross_time s d := by
      have h := last_cross_time_update_presence config s ts (some cp) d
      rw [hu] at h
      exact h
    have hlc2 : last_cross_time { s1 with last_centroid := some cp } d
        = last_cross_time s d := by
      cases d <;> simpa [last_cross_time] using h2
    cases hprev : s1.last_centroid with
    | none =>
      left
      exact ⟨by simp only [step, process_frame, hu, hprev]; exact h1,
        by simp only [step, process_frame, hu, hprev]; exact hlc2⟩
    | some p =>
      rcases door_scan_spec config { s1 with last_centroid := some cp } ts p cp
          [Door.bed, Door.bath] with hds | ⟨d0, dir, hds, hcd⟩
      · left
        refine ⟨?_, ?_⟩
        · simp only [step, process_frame, hu, hprev, hds, Option.map_none']
          rw [cross_times_append, h1]
          simp [handle_detection, cross_times]
        · simp only [step, process_frame, hu, hprev, hds]
          exact hlc2
      · by_cases hdd : d0 = d
        · subst hdd
          rw [hlc2] at hcd
          right
          refine ⟨?_, hcd, ?_⟩
          · simp only [step, process_frame, hu, hprev, hds, Option.map_some']
            rw [cross_times_append, h1]
            simp [handle_detection, cross_times]
          · simp only [step, process_frame, hu, hprev, hds]
            exact last_cross_set_self _ _ _
        · left
          refine ⟨?_, ?_⟩
          · simp only [step, process_frame, hu, hprev, hds, Option.map_some']
            rw [cross_times_append, h1]
            simp [handle_detection, cross_times, hdd]
          · simp only [step, process_frame, hu, hprev, hds]
            rw [last_cross_set_other _ _ _ _ (fun h => hdd h.symm), hlc2]

end Fusion

namespace Fusion

open HomeVision

theorem run_trace_cross_chain (config : Config) (d : Door) :
    ∀ (trace : List (ℚ × Option Point)) (s : State),
      List.Chain' (fun t1 t2 => config.detection_cooldown ≤ t2 - t1)
        (cross_times d (run_trace config s trace).2) ∧
      (∀ t, (cross_times d (run_trace config s trace).2).head? = some t →
        config.detection_cooldown ≤ t - last_cross_time s d)
  | [], s => by simp [run_trace, cross_times]
  | (ts, c) :: rest, s => by
    rcases hstep : step config s ts c with ⟨s1, pubs1⟩
    obtain ⟨ih1, ih2⟩ := run_trace_cross_chain config d rest s1
    rcases step_cross_spec config s ts c d with ⟨hc, hl⟩ | ⟨hc, hcd, hl⟩
    · rw [hstep] at hc hl
      constructor
      · simp only [run_trace, hstep]
        rw [cross_times_append, hc, List.nil_append]
        exact ih1
      · intro t ht
        simp only [run_trace, hstep] at ht
        rw [cross_times_append, hc, List.nil_append] at ht
        rw [← hl]
        exact ih2 t ht
    · rw [hstep] at hc hl
      constructor
      · simp only [run_trace, hstep]
        rw [cross_times_append, hc, List.singleton_append, List.chain'_cons']
        refine ⟨?_, ih1⟩
        intro t ht
        have h := ih2 t ht
        rwa [hl] at h
      · intro t ht
        simp only [run_trace, hstep] at ht
        rw [cross_times_append, hc, List.singleton_append] at ht
        simp only [List.head?_cons, Option.some.injEq] at ht
        rw [← ht]
        exact hcd

/-- Claim C4: per door, successive published crossings are separated by at
least `detection_cooldown` (in every execution, from every starting state),
and a crossing detected less than `detection_cooldown` after the previous
accepted crossing of that door is not published and does not update the
door's `_last_cross_time`. -/
theorem crossing_cooldown_per_door (config : Config) (d : Door) :
    (∀ (s0 : State) (trace : List (ℚ × Option Point)),
      List.Chain' (fun t1 t2 => config.detection_cooldown ≤ t2 - t1)
        (cross_times d (run_trace config s0 trace).2)) ∧
    (∀ (s : State) (ts : ℚ) (prev curr : Point) (dir : String),
      s.last_centroid = some prev →
      line_crossed prev curr (door_line config d) = some dir →
      ts - last_cross_time s d < config.detection_cooldown →
      cross_times d (step config s ts (some curr)).2 = [] ∧
      last_cross_time (step config s ts (some curr)).1 d = last_cross_time s d) := by
  constructor
  · intro s0 trace
    exact (run_trace_cross_chain config d trace s0).1
  · intro s ts prev curr dir hprev hlc hcd
    rcases step_cross_spec config s ts (some curr) d with h | ⟨-, hge, -⟩
    · exact h
    · exact absurd hcd (not_lt.mpr hge)

end Fusion

namespace Fusion

open HomeVision

theorem presence_values_append (l1 l2 : List Pub) :
    presence_values (l1 ++ l2) = presence_values l1 ++ presence_values l2 :=
  List.filterMap_append ..

theorem presence_values_handle_detection (config : Config) (s : State)
    (det : Detection) : presence_values (handle_detection config s det) = [] := by
  rcases det with ⟨c0, t0, door0, dir0⟩
  cases door0 <;> cases dir0 <;> simp [handle_detection, presence_values]

theorem set_last_cross_presence (s : State) (d : Door) (ts : ℚ) :
    (set_last_cross s d ts).last_presence_state = s.last_presence_state := by
  cases d <;> rfl

theorem step_presence_parts (config : Config) (s : State) (ts : ℚ)
    (c : Option Point) :
    presence_values (step config s ts c).2
      = presence_values (update_presence config s ts c).2 ∧
    (step config s ts c).1.last_presence_state
      = (update_presence config s ts c).1.last_presence_state := by
  cases c with
  | none =>
    rcases hu : update_presence config s ts none with ⟨s1, pubs1⟩
    constructor <;> simp only [step, process_frame, hu]
  | some cp =>
    rcases hu : update_presence config s ts (some cp) with ⟨s1, pubs1⟩
    cases hprev : s1.last_centroid with
    | none =>
      constructor <;> simp only [step, process_frame, hu, hprev]
    | some p =>
      rcases door_scan_spec config { s1 with last_centroid := some cp } ts p cp
          [Door.bed, Door.bath] with hds | ⟨d0, dir, hds, hcd⟩
      · constructor
        · simp only [step, process_frame, hu, hprev, hds, Option.map_none']
          rw [presence_values_append, presence_values_handle_detection,
            List.append_nil]
        · simp only [step, process_frame, hu, hprev, hds]
      · constructor
        · simp only [step, process_frame, hu, hprev, hds, Option.map_some']
          rw [presence_values_append, presence_values_handle_detection,
            List.append_nil]
        · simp only [step, process_frame, hu, hprev, hds]
          rw [set_last_cross_presence]

theorem step_presence_spec (config : Config) (s : State) (ts : ℚ)
    (c : Option Point) :
    (presence_values (step config s ts c).2 = [] ∧
      (step config s ts c).1.last_presence_state = s.last_presence_state)
    ∨ (presence_values (step config s ts c).2 = [!s.last_presence_state] ∧
      (step config s ts c).1.last_presence_state = !s.last_presence_state) := by
  obtain ⟨h1, h2⟩ := step_presence_parts config s ts c
  rcases update_presence_spec config s ts c with ⟨hp, hpr⟩ | ⟨hp, hpr⟩
  · left
    rw [h1, hp, h2, hpr]
    exact ⟨rfl, rfl⟩
  · right
    rw [h1, hp, h2, hpr]
    exact ⟨by simp [publish_presence, presence_values, List.filterMap_cons], rfl⟩

end Fusion

namespace Fusion

open HomeVision

theorem handle_detection_all_ok (config : Config) (s : State) (det : Detection) :
    (handle_detection config s det).all (presence_pub_ok config) = true := by
  rcases det with ⟨c0, t0, door0, dir0⟩
  cases door0 <;> cases dir0 <;> simp [handle_detection, presence_pub_ok]

theorem step_all_ok (config : Config) (s : State) (ts : ℚ) (c : Option Point) :
    (step config s ts c).2.all (presence_pub_ok config) = true := by
  have hup : ∀ u : State × List Pub, update_presence config s ts c = u →
      u.2.all (presence_pub_ok config) = true := by
    intro u hu
    rcases update_presence_spec config s ts c with ⟨hp, -⟩ | ⟨hp, -⟩ <;>
      rw [hu] at hp <;> simp [hp, publish_presence, presence_pub_ok]
  cases c with
  | none =>
    rcases hu : update_presence config s ts none with ⟨s1, pubs1⟩
    simp only [step, process_frame, hu]
    exact hup (s1, pubs1) hu
  | some cp =>
    rcases hu : update_presence config s ts (some cp) with ⟨s1, pubs1⟩
    have hp1 : pubs1.all (presence_pub_ok config) = true := hup (s1, pubs1) hu
    cases hprev : s1.last_centroid with
    | none =>
      simp only [step, process_frame, hu, hprev]
      exact hp1
    | some p =>
      rcases door_scan_spec config { s1 with last_centroid := some cp } ts p cp
          [Door.bed, Door.bath] with hds | ⟨d0, dir, hds, hcd⟩ <;>
        simp only [step, process_frame, hu, hprev, hds, Option.map_none',
          Option.map_some'] <;>
        rw [List.all_append] <;>
        simp [hp1, handle_detection_all_ok]

theorem run_trace_presence_spec (config : Config) :
    ∀ (trace : List (ℚ × Option Point)) (s : State),
      List.Chain' (fun a b => a ≠ b) (presence_values (run_trace config s trace).2) ∧
      (∀ b, (presence_values (run_trace config s trace).2).head? = some b →
        b = !s.last_presence_state) ∧
      (run_trace config s trace).2.all (presence_pub_ok config) = true
  | [], s => by simp [run_trace, presence_values]
  | (ts, c) :: rest, s => by
    rcases hstep : step config s ts c with ⟨s1, pubs1⟩
    obtain ⟨ih1, ih2, ih3⟩ := run_trace_presence_spec config rest s1
    have hall := step_all_ok config s ts c
    rw [hstep] at hall
    rcases step_presence_spec config s ts c with ⟨hp, hpr⟩ | ⟨hp, hpr⟩ <;>
      rw [hstep] at hp hpr
    · refine ⟨?_, ?_, ?_⟩
      · simp only [run_trace, hstep]
        rw [presence_values_append, hp, List.nil_append]
        exact ih1
      · intro b hb
        simp only [run_trace, hstep] at hb
        rw [presence_values_append, hp, List.nil_append] at hb
        rw [ih2 b hb, hpr]
      · simp only [run_trace, hstep]
        rw [List.all_append]
        simp [hall, ih3]
    · refine ⟨?_, ?_, ?_⟩
      · simp only [run_trace, hstep]
        rw [presence_values_append, hp, List.singleton_append, List.chain'_cons']
        refine ⟨?_, ih1⟩
        intro b hb
        have hb2 := ih2 b hb
        rw [hpr] at hb2
        simp [hb2]
      · intro b hb
        simp only [run_trace, hstep] at hb
        rw [presence_values_append, hp, List.singleton_append] at hb
        simp only [List.head?_cons, Option.some.injEq] at hb
        rw [← hb]
      · simp only [run_trace, hstep]
        rw [List.all_append]
        simp [hall, ih3]

/-- Claim C5: in every execution from the freshly initialised service state,
the published presence events strictly alternate in their `present` value,
the first published presence event carries `present = true`, and every
presence payload is on the `vision_state` topic with confidence `0.9` when
present and `0.8` otherwise. -/
theorem presence_alternation (config : Config) (trace : List (ℚ × Option Point)) :
    List.Chain' (fun a b => a ≠ b)
      (presence_values (run_trace config initial_state trace).2) ∧
    (presence_values (run_trace config initial_state trace).2).head?.getD true = true ∧
    (run_trace config initial_state trace).2.all (presence_pub_ok config) = true := by
  obtain ⟨h1, h2, h3⟩ := run_trace_presence_spec config trace initial_state
  refine ⟨h1, ?_, h3⟩
  cases hh : (presence_values (run_trace config initial_state trace).2).head? with
  | none => rfl
  | some b =>
    have hb := h2 b hh
    simp [hb, initial_state]

end Fusion

namespace Fusion

open HomeVision

/-- Witness for C4: the two-frame crossing trace of scenario 1 for the chain
part, and a state whose bed door crossed again half a second after an
accepted crossing at `t = 10` for the suppression part. -/
theorem crossing_cooldown_per_door_witness :
    List.Chain' (fun t1 t2 => Config.detection_cooldown {} ≤ t2 - t1)
      (cross_times Door.bed
        (run_trace {} initial_state
          [(2, some (1/4, 1/5)), (2 + 1/10, some (1/4, 2/5))]).2) ∧
    (cross_times Door.bed
        (step {}
          { initial_state with last_centroid := some (1/4, 1/5), last_cross_bed := 10 }
          (21/2) (some (1/4, 2/5))).2 = [] ∧
      last_cross_time
          (step {}
            { initial_state with last_centroid := some (1/4, 1/5), last_cross_bed := 10 }
            (21/2) (some (1/4, 2/5))).1 Door.bed =
        last_cross_time
          { initial_state with last_centroid := some (1/4, 1/5), last_cross_bed := 10 }
          Door.bed) :=
  ⟨(crossing_cooldown_per_door {} Door.bed).1 initial_state
      [(2, some (1/4, 1/5)), (2 + 1/10, some (1/4, 2/5))],
    (crossing_cooldown_per_door {} Door.bed).2
      { initial_state with last_centroid := some (1/4, 1/5), last_cross_bed := 10 }
      (21/2) (1/4, 1/5) (1/4, 2/5) "into_living" rfl
      (by norm_num [line_crossed, door_line])
      (by norm_num [last_cross_time, initial_state])⟩

end Fusion
